import Mathlib

/-!
# DrawCurrencyPlots: the bounded price window and the plot session

A shallow embedding of `main.go`.

* Go slices are modelled over a word-addressed memory: a slice is a header
  `(ptr, len, cap)` and its elements are read from the memory, so that two
  headers that point into the same array alias each other exactly as in Go.
* `float64` samples are only moved around by the window code, never inspected;
  the element type is a parameter `α` of the model.
* A Go `error` is an `Option GoError` (`none` is `nil`); a run-time panic is the
  `Except.error` of `Except Panic`.
* The network fetch (`getNewPrice`) and the keyboard are collaborators: their
  results are inputs of the model.
* The program is a state machine over a list of actions, the schedule. The state
  holds the one memory, the slice `data` of `menu`, and every session started so
  far with the state of its sampler goroutine, so that the sampler a cancelled
  `buildPlot` leaves behind keeps running beside the menu and the next sessions.
  An iteration of the sampler takes two actions, the head check and the return
  of `getNewPrice`, and a key may arrive in between.
* The coordinator of `buildPlot` only waits in `<-errCh`: its reaction to the
  first error (`closeCtx()`, the return, the deferred `close(errCh)` and what
  `menu` does next up to its next `keyboard.GetKey()`) is part of the action that
  delivers the error. The renderer's handling of a snapshot is part of the action
  that sends it.
-/

namespace DrawCurrencyPlots

variable {α : Type}

/-! ## Errors -/

/-- Error values of the program. `quit` is the package variable `ErrQuiteButton`,
`other` is any error value made outside the package (HTTP, JSON, parsing, keyboard),
`wrapf ctx e` is `fmt.Errorf(ctx + "%w", e)`. -/
inductive GoError where
  | quit
  | other (msg : String)
  | wrapf (ctx : String) (inner : GoError)
deriving DecidableEq, Repr

/-- The package variable `ErrQuiteButton = errors.New("quite")`. -/
def ErrQuiteButton : GoError := GoError.quit

/-- Go's `errors.Is(err, target)`: `err` or an error in its `%w` chain is `target`. -/
def errorsIs : GoError → GoError → Bool
  | GoError.wrapf ctx inner, target =>
      decide (GoError.wrapf ctx inner = target) || errorsIs inner target
  | e, target => decide (e = target)

/-- The chain of an error: the error itself, then the error it wraps (what
`errors.Unwrap` gives), and so on. -/
def GoError.chain : GoError → List GoError
  | GoError.wrapf ctx inner => GoError.wrapf ctx inner :: inner.chain
  | GoError.quit => [GoError.quit]
  | GoError.other msg => [GoError.other msg]

/-- A run-time panic of the Go runtime. -/
inductive Panic where
  /-- A slice expression out of range: "slice bounds out of range [lo:hi]". -/
  | sliceBounds (lo hi : Nat)
  /-- An index expression out of range on a slice of this length. -/
  | indexRange (len : Nat)
  /-- A send on a closed channel: "send on closed channel". -/
  | sendOnClosed
  /-- The call `panic(err)` of `main`. -/
  | goError (e : GoError)
deriving DecidableEq, Repr

/-! ## Memory and slices -/

/-- Word-addressed memory: the cells of every allocated array, by address. -/
abbrev Mem (α : Type) := List α

/-- A Go slice header: address of element 0, length, capacity. -/
structure Slice where
  ptr : Nat
  len : Nat
  cap : Nat
deriving DecidableEq, Repr

/-- The nil slice (`len 0`, `cap 0`). -/
def Slice.nil : Slice := ⟨0, 0, 0⟩

/-- The elements readable through a slice: `s[0], ..., s[len(s)-1]`. -/
def Slice.read (s : Slice) (m : Mem α) : List α :=
  (m.drop s.ptr).take s.len

/-- A slice value is well formed in a memory: `len ≤ cap` and its array is allocated. -/
def Slice.valid (s : Slice) (m : Mem α) : Prop :=
  s.len ≤ s.cap ∧ s.ptr + s.cap ≤ m.length

instance (s : Slice) (m : Mem α) : Decidable (s.valid m) := by
  unfold Slice.valid
  exact inferInstance

/-- Store the values `vs` at the addresses `p, p+1, ...`. -/
def Mem.write (m : Mem α) (p : Nat) (vs : List α) : Mem α :=
  m.take p ++ vs ++ m.drop (p + vs.length)

/-- The expression `make([]float64, 0, c)`: a fresh zeroed array of `c` cells and a
slice of length 0 over it. -/
def makeSlice (zero : α) (m : Mem α) (c : Nat) : Mem α × Slice :=
  (m ++ List.replicate c zero, ⟨m.length, 0, c⟩)

/-- The slice expression `s[lo:hi]` (`s[lo:]` is `s[lo:len(s)]`, `s[:hi]` is `s[0:hi]`):
it panics unless `lo ≤ hi ≤ cap(s)`. -/
def Slice.reslice (s : Slice) (lo hi : Nat) : Except Panic Slice :=
  if hi ≤ s.cap ∧ lo ≤ hi then
    Except.ok ⟨s.ptr + lo, hi - lo, s.cap - lo⟩
  else
    Except.error (Panic.sliceBounds lo hi)

/-- Go's built-in `append(s, vs...)`. When the values fit in the capacity they are
stored in place behind the slice's last element; otherwise a new array is allocated
(its capacity is implementation defined: the model allocates exactly the length
needed) and the old elements are copied. The values are read before anything is
stored, as in Go's `memmove` for overlapping source and destination. -/
def goAppend (m : Mem α) (s : Slice) (vs : List α) : Mem α × Slice :=
  if s.len + vs.length ≤ s.cap then
    (Mem.write m (s.ptr + s.len) vs, ⟨s.ptr, s.len + vs.length, s.cap⟩)
  else
    (m ++ (s.read m ++ vs), ⟨m.length, s.len + vs.length, s.len + vs.length⟩)

/-! ## The window: `getNewData` and `worker` -/

/-- The function `getNewData`; `price` is the result of `getNewPrice(currency)`.
```go
newData, err := getNewPrice(currency)
if err != nil { return oldData, err }
if len(oldData) == cap(oldData) {
    return append(append(oldData[:0], oldData[1:]...), newData), nil
}
return append(oldData, newData), nil
```
-/
def getNewData (m : Mem α) (price : Except GoError α) (oldData : Slice) :
    Except Panic (Mem α × Slice × Option GoError) :=
  match price with
  | Except.error err => Except.ok (m, oldData, some err)
  | Except.ok newData =>
    if oldData.len = oldData.cap then
      match oldData.reslice 0 0 with
      | Except.error p => Except.error p
      | Except.ok dst =>
        match oldData.reslice 1 oldData.len with
        | Except.error p => Except.error p
        | Except.ok src =>
          let r1 := goAppend m dst (src.read m)
          let r2 := goAppend r1.1 r1.2 [newData]
          Except.ok (r2.1, r2.2, none)
    else
      let r := goAppend m oldData [newData]
      Except.ok (r.1, r.2, none)

/-- Successive calls of `getNewData`, each on the slice the previous one returned,
with fetches that all succeed with the given samples. -/
def appendAll (m : Mem α) (s : Slice) : List α → Except Panic (Mem α × Slice)
  | [] => Except.ok (m, s)
  | x :: xs =>
    match getNewData m (Except.ok x) s with
    | Except.error p => Except.error p
    | Except.ok (m1, s1, _) => appendAll m1 s1 xs

/-- The window a FIFO of capacity `c` holds after the samples `xs` arrived: the last
`min (length xs) c` of them, oldest first. -/
def lastN (c : Nat) (xs : List α) : List α :=
  xs.drop (xs.length - c)

/-! ## The sampler, the renderer and `exit` -/

/-- The function `worker`: the second component is the slice sent on `ch`, if any,
the third the error returned.
```go
newData, err := getNewData(currency, oldData)
if err != nil { return fmt.Errorf("worker -> %w", err) }
ch <- newData
return nil
```
-/
def worker (m : Mem α) (price : Except GoError α) (oldData : Slice) :
    Except Panic (Mem α × Option Slice × Option GoError) :=
  match getNewData m price oldData with
  | Except.error p => Except.error p
  | Except.ok (m1, _, some err) => Except.ok (m1, none, some (GoError.wrapf "worker -> " err))
  | Except.ok (m1, newData, none) => Except.ok (m1, some newData, none)

/-- The index expression `s[i]`: it panics unless `0 ≤ i < len(s)`. -/
def Slice.index (s : Slice) (m : Mem α) (i : Int) : Except Panic α :=
  if 0 ≤ i ∧ i < s.len then
    match (s.read m)[i.toNat]? with
    | some v => Except.ok v
    | none => Except.error (Panic.indexRange s.len)
  else
    Except.error (Panic.indexRange s.len)

/-- The latest-price field of a frame: `data[len(data)-1]` in the renderer. -/
def lastValue (m : Mem α) (data : Slice) : Except Panic α :=
  data.index m ((data.len : Int) - 1)

/-- What a session does that can be observed. -/
inductive Event (α : Type) where
  /-- The function `getNewPrice` was called and returned this. -/
  | fetch (r : Except GoError α)
  /-- The send `ch <- newData`, with the elements readable through it at that moment. -/
  | publish (snap : Slice) (elems : List α)
  /-- The renderer drew a frame whose latest-price field is `last`. -/
  | frame (last : α)
  /-- The send `errCh <- err` of the sampler. -/
  | sendErr (e : GoError)
  /-- The call `close(ch)`. -/
  | closeCh
  /-- A goroutine panicked. -/
  | panicked (p : Panic)

/-- The snapshots sent on `ch`, as the renderer reads them. -/
def snapshots : List (Event α) → List (List α)
  | [] => []
  | Event.publish _ elems :: rest => elems :: snapshots rest
  | _ :: rest => snapshots rest

/-- The latest-price fields of the frames drawn. -/
def frames : List (Event α) → List α
  | [] => []
  | Event.frame v :: rest => v :: frames rest
  | _ :: rest => frames rest

/-- The samples fetched successfully. -/
def fetched : List (Event α) → List α
  | [] => []
  | Event.fetch (Except.ok v) :: rest => v :: fetched rest
  | _ :: rest => fetched rest

/-- The number of calls of `getNewPrice`. -/
def fetchCount : List (Event α) → Nat
  | [] => 0
  | Event.fetch _ :: rest => fetchCount rest + 1
  | _ :: rest => fetchCount rest

/-- The errors the sampler sent on `errCh`. -/
def sentErrors : List (Event α) → List GoError
  | [] => []
  | Event.sendErr e :: rest => e :: sentErrors rest
  | _ :: rest => sentErrors rest

/-- The panic that ended the session, if any. -/
def crash : List (Event α) → Option Panic
  | [] => none
  | Event.panicked p :: _ => some p
  | _ :: rest => crash rest

/-- The type `keyboard.Key` of the keyboard library. The program compares a key only
with the library's constants `KeyBackspace` and `KeyBackspace2`, so a key is one of
these two or another key, given by its code. -/
inductive Key where
  | backspace
  | backspace2
  | other (code : Nat)
deriving DecidableEq, Repr

/-- The constant `keyboard.KeyBackspace`. -/
def KeyBackspace : Key := Key.backspace

/-- The constant `keyboard.KeyBackspace2`. -/
def KeyBackspace2 : Key := Key.backspace2

/-- A key event of the keyboard library (`keyboard.KeyEvent`): key, rune, error. -/
structure KeyEvent where
  key : Key
  rune : Nat
  err : Option GoError
deriving DecidableEq, Repr

/-- The function `exit` on the events that arrive on `keysEvents`, in order. The
result is `none` when the loop never returns (it waits for a further event); otherwise
it is the error returned and the events left unconsumed.
```go
case key := <-keysEvents:
    if key.Err != nil { err = key.Err; return }
    if key.Key == keyboard.KeyBackspace || key.Key == keyboard.KeyBackspace2 {
        err = ErrQuiteButton; return
    }
```
-/
def exit : List KeyEvent → Option (Option GoError × List KeyEvent)
  | [] => none
  | key :: rest =>
    match key.err with
    | some e => some (some e, rest)
    | none =>
      if key.key = KeyBackspace ∨ key.key = KeyBackspace2 then
        some (some ErrQuiteButton, rest)
      else
        exit rest

/-- The event decides `exit`: it carries an error or is one of the backspace keys. -/
def KeyEvent.decisive (k : KeyEvent) : Bool :=
  k.err.isSome || decide (k.key = KeyBackspace) || decide (k.key = KeyBackspace2)

/-- The error the goroutine around `exit` sends on `errCh`, if `exit` returns. -/
def exitSend (keys : List KeyEvent) : Option GoError :=
  match exit keys with
  | some (some e, _) => some e
  | _ => none

/-- The end of `buildPlot`, `err` being the value received from `errCh`.
```go
if errors.Is(err, ErrQuiteButton) { return nil }
return fmt.Errorf("buildPlot -> %w", err)
```
-/
def buildPlotResult (err : GoError) : Option GoError :=
  if errorsIs err ErrQuiteButton = true then none
  else some (GoError.wrapf "buildPlot -> " err)

/-- The symbol a menu key selects: runes `one`, `two`, `three` of `menu`. -/
def currencyOf (char : Nat) : Option String :=
  if char = 49 then some "BTC"
  else if char = 50 then some "LTC"
  else if char = 51 then some "ETH"
  else none

/-! ## The program as a state machine -/

/-- Where the sampler goroutine of a session stands. -/
inductive Pc where
  /-- Before the `select` at the head of an iteration (asleep, or about to start). -/
  | idle
  /-- Inside `worker`, waiting for `getNewPrice` to return. -/
  | fetching
  /-- It returned or panicked. -/
  | stopped
deriving DecidableEq, Repr

/-- One call of `buildPlot` and the goroutines it started. -/
structure Session (α : Type) where
  /-- The argument `currency`. -/
  currency : String
  /-- The variable `data` of this call, which the sampler reads and the renderer
  assigns (`for data = range ch`). -/
  data : Slice
  /-- The coordinator has received its error: `closeCtx()` was called, `buildPlot`
  returned and its deferred `close(errCh)` ran. -/
  cancelled : Bool
  /-- The sampler goroutine. -/
  pc : Pc
  /-- The error of the `keyboard.Open()` that follows the call in `menu`, `none` when
  it succeeds. -/
  reopen : Option GoError
  /-- What the sampler and the renderer of the session did. -/
  trace : List (Event α)

/-- How a function ended. -/
inductive Outcome where
  /-- It returned this error (`none` is `nil`). -/
  | returned (err : Option GoError)
  /-- The process panicked. -/
  | crashed (p : Panic)
deriving DecidableEq, Repr

/-- What the main goroutine does. -/
inductive Phase where
  /-- The loop of `menu` has written the menu and waits in `keyboard.GetKey()`. -/
  | menu
  /-- The call of `buildPlot` waits in `err = <-errCh`. -/
  | session
  /-- The function `menu` returned, or a goroutine panicked: the process ends. -/
  | finished (o : Outcome)
deriving DecidableEq, Repr

/-- State of the program. -/
structure Prog (α : Type) where
  /-- The memory, which holds the one array made in `menu`. -/
  mem : Mem α
  /-- The variable `data` of `menu`. -/
  data : Slice
  phase : Phase
  /-- The number of times the menu text was written. -/
  displays : Nat
  /-- The sessions started so far, oldest first. -/
  sessions : List (Session α)

/-- One step of the schedule. -/
inductive Action (α : Type) where
  /-- The call `keyboard.GetKey()` of `menu` returns the event; `getKeys` is the error of
  `keyboard.GetKeys(1)` and `reopen` the error of the `keyboard.Open()` after the
  session, in case the key starts a session. -/
  | menuKey (ev : KeyEvent) (getKeys reopen : Option GoError)
  /-- The event arrives on `keysEvents` of the running session. -/
  | sessKey (ev : KeyEvent)
  /-- The sampler of session `i` runs the `select` at the head of its loop. -/
  | head (i : Nat)
  /-- The call `getNewPrice` of the sampler of session `i` returns `r`. -/
  | fetched (i : Nat) (r : Except GoError α)

/-- What an action of a sampler does to the rest of the program. -/
inductive Effect where
  | nothing
  /-- The send `errCh <- err` went through and the coordinator received `err`. -/
  | delivered (err : GoError)
  /-- The goroutine panicked. -/
  | crashed (p : Panic)
deriving DecidableEq, Repr

/-- The head of an iteration of the sampler loop.
```go
select {
case <-ctx.Done():
    close(ch)
    return
default:
}
```
-/
def sampleHead (s : Session α) : Session α :=
  match s.pc with
  | Pc.idle =>
    if s.cancelled = true then
      { s with pc := Pc.stopped, trace := s.trace ++ [Event.closeCh] }
    else
      { s with pc := Pc.fetching }
  | _ => s

/-- The rest of an iteration of the sampler loop, from the return of `getNewPrice`, and
the renderer's handling of the snapshot sent. The send on `errCh`, whose buffer of one
is empty while the coordinator waits, panics once `errCh` is closed.
```go
if err := worker(currency, data, ch); err != nil {
    errCh <- err
}
time.Sleep(1 * time.Second)
```
-/
def sampleFetched (m : Mem α) (s : Session α) (r : Except GoError α) :
    Mem α × Session α × Effect :=
  match s.pc with
  | Pc.fetching =>
    match worker m r s.data with
    | Except.error p =>
      (m, { s with pc := Pc.stopped, trace := s.trace ++ [Event.fetch r, Event.panicked p] },
        Effect.crashed p)
    | Except.ok (m1, none, some err) =>
      if s.cancelled = true then
        (m1, { s with pc := Pc.stopped, trace := s.trace ++
            [Event.fetch r, Event.panicked Panic.sendOnClosed] },
          Effect.crashed Panic.sendOnClosed)
      else
        (m1, { s with pc := Pc.idle, trace := s.trace ++ [Event.fetch r, Event.sendErr err] },
          Effect.delivered err)
    | Except.ok (m1, none, none) =>
      (m1, { s with pc := Pc.idle, trace := s.trace ++ [Event.fetch r] }, Effect.nothing)
    | Except.ok (m1, some snap, _) =>
      match lastValue m1 snap with
      | Except.error p =>
        (m1, { s with data := snap, pc := Pc.stopped, trace := s.trace ++
            [Event.fetch r, Event.publish snap (snap.read m1), Event.panicked p] },
          Effect.crashed p)
      | Except.ok v =>
        (m1, { s with data := snap, pc := Pc.idle, trace := s.trace ++
            [Event.fetch r, Event.publish snap (snap.read m1), Event.frame v] },
          Effect.nothing)
  | _ => (m, s, Effect.nothing)

/-- The coordinator of session `i`, whose state is `s`, receives `err` from `errCh`: the
context is cancelled, `buildPlot` returns, and `menu` goes on.
```go
err = <-errCh
closeCtx()
if errors.Is(err, ErrQuiteButton) { return nil }
return fmt.Errorf("buildPlot -> %w", err)
```
and in `menu`
```go
if err := buildPlot(writer, "BTC", data); err != nil {
    return fmt.Errorf("menu -> %w", err)
}
if err := keyboard.Open(); err != nil {
    return fmt.Errorf("menu -> %w", err)
}
```
-/
def coordinator (p : Prog α) (i : Nat) (s : Session α) (err : GoError) : Prog α :=
  let sessions := p.sessions.set i { s with cancelled := true }
  match buildPlotResult err with
  | some e =>
    { p with sessions := sessions,
             phase := Phase.finished (Outcome.returned (some (GoError.wrapf "menu -> " e))) }
  | none =>
    match s.reopen with
    | some e =>
      { p with sessions := sessions,
               phase := Phase.finished (Outcome.returned (some (GoError.wrapf "menu -> " e))) }
    | none =>
      { p with sessions := sessions, phase := Phase.menu, displays := p.displays + 1 }

/-- One iteration of the loop of `menu` from the return of `keyboard.GetKey()`: the
key ends the menu, starts a session on the slice `data` of `menu`, or does nothing. -/
def menuKey (p : Prog α) (ev : KeyEvent) (getKeys reopen : Option GoError) : Prog α :=
  match ev.err with
  | some e =>
    { p with phase := Phase.finished (Outcome.returned (some (GoError.wrapf "menu -> " e))) }
  | none =>
    if ev.rune = 113 then
      { p with phase := Phase.finished (Outcome.returned none) }
    else
      match currencyOf ev.rune with
      | none => { p with displays := p.displays + 1 }
      | some currency =>
        match getKeys with
        | some e =>
          { p with phase := Phase.finished (Outcome.returned
              (some (GoError.wrapf "menu -> " (GoError.wrapf "buildPlot -> " e)))) }
        | none =>
          { p with phase := Phase.session,
                   sessions := p.sessions ++
                     [{ currency := currency, data := p.data, cancelled := false,
                        pc := Pc.idle, reopen := reopen, trace := [] }] }

/-- A key event reaches the goroutine that runs `exit` in the running session, the last
one started: when `exit` returns an error it is sent on `errCh` and the coordinator
receives it.
```go
if err := exit(keysEvents); err != nil {
    errCh <- err
}
```
-/
def sessKey (p : Prog α) (ev : KeyEvent) : Prog α :=
  match p.sessions[p.sessions.length - 1]? with
  | none => p
  | some s =>
    match exitSend [ev] with
    | none => p
    | some err => coordinator p (p.sessions.length - 1) s err

/-- The sampler of session `i` runs its head check. -/
def headStep (p : Prog α) (i : Nat) : Prog α :=
  match p.sessions[i]? with
  | none => p
  | some s => { p with sessions := p.sessions.set i (sampleHead s) }

/-- The fetch of the sampler of session `i` returns. -/
def fetchedStep (p : Prog α) (i : Nat) (r : Except GoError α) : Prog α :=
  match p.sessions[i]? with
  | none => p
  | some s =>
    let out := sampleFetched p.mem s r
    let p1 := { p with mem := out.1, sessions := p.sessions.set i out.2.1 }
    match out.2.2 with
    | Effect.nothing => p1
    | Effect.crashed pn => { p1 with phase := Phase.finished (Outcome.crashed pn) }
    | Effect.delivered err => coordinator p1 i out.2.1 err

/-- One action of the schedule. Nothing runs once the process has ended; a key is
taken by `menu` or by `exit`, whichever is waiting for it. -/
def step (p : Prog α) (a : Action α) : Prog α :=
  match p.phase with
  | Phase.finished _ => p
  | Phase.menu =>
    match a with
    | Action.menuKey ev getKeys reopen => menuKey p ev getKeys reopen
    | Action.sessKey _ => p
    | Action.head i => headStep p i
    | Action.fetched i r => fetchedStep p i r
  | Phase.session =>
    match a with
    | Action.menuKey _ _ _ => p
    | Action.sessKey ev => sessKey p ev
    | Action.head i => headStep p i
    | Action.fetched i r => fetchedStep p i r

/-- The program over a schedule. -/
def run (p : Prog α) (acts : List (Action α)) : Prog α :=
  acts.foldl step p

/-- The function `menu` up to its loop: `zero` is the `float64` zero of the fresh
array, `openErr` the error of the first `keyboard.Open()`.
```go
data := make([]float64, 0, 120)
if err := keyboard.Open(); err != nil {
    return fmt.Errorf("menu -> %w", err)
}
```
-/
def start (zero : α) (openErr : Option GoError) : Prog α :=
  let md := makeSlice zero [] 120
  match openErr with
  | some e =>
    { mem := md.1, data := md.2, displays := 0, sessions := [],
      phase := Phase.finished (Outcome.returned (some (GoError.wrapf "menu -> " e))) }
  | none => { mem := md.1, data := md.2, displays := 1, sessions := [], phase := Phase.menu }

/-- The function `menu` over a schedule. -/
def menu (zero : α) (openErr : Option GoError) (acts : List (Action α)) : Prog α :=
  run (start zero openErr) acts

/-- The function `main` on what `menu` did: it panics with the error `menu` returns, if
any; `none` while `menu` has not returned.
```go
if err := menu(); err != nil { panic(err) }
```
-/
def main (p : Prog α) : Option Outcome :=
  match p.phase with
  | Phase.finished (Outcome.returned (some err)) => some (Outcome.crashed (Panic.goError err))
  | Phase.finished o => some o
  | _ => none

/-- The events of session `i`; no events if it was not started. -/
def sessionTrace (p : Prog α) (i : Nat) : List (Event α) :=
  match p.sessions[i]? with
  | some s => s.trace
  | none => []


/-- The events keep the frames in step with the fetches: every frame shows the sample
just fetched, every snapshot ends with the sample just fetched, and the only panic
is the send on the closed `errCh`, after a fetch that failed. -/
def GoodTrace (tr : List (Event α)) : Prop :=
  frames tr = fetched tr
    ∧ List.Forall₂ (fun snap x => ∃ w : List α, snap = w ++ [x]) (snapshots tr) (fetched tr)
    ∧ ∀ pn, crash tr = some pn →
        pn = Panic.sendOnClosed ∧ ∃ e, Event.fetch (Except.error e) ∈ tr

theorem Slice.length_read (s : Slice) (m : Mem α) (h : s.ptr + s.len ≤ m.length) :
    (s.read m).length = s.len := by
  simp [Slice.read]
  omega

theorem Mem.length_write (m : Mem α) (p : Nat) (vs : List α) (h : p + vs.length ≤ m.length) :
    (Mem.write m p vs).length = m.length := by
  simp [Mem.write]
  omega

/-- Storing behind the last element of a slice extends what is read through it. -/
theorem read_write_behind (m : Mem α) (p l c : Nat) (vs : List α) (h : p + l ≤ m.length) :
    Slice.read ⟨p, l + vs.length, c⟩ (Mem.write m (p + l) vs) = Slice.read ⟨p, l, c⟩ m ++ vs := by
  have hlen : (List.take (p + l) m).length = p + l := by simp; omega
  have hA : List.drop p (List.take (p + l) m) = List.take l (List.drop p m) := by
    rw [List.drop_take]; simp
  have hAl : (List.take l (List.drop p m)).length = l := by simp; omega
  simp only [Slice.read, Mem.write, List.append_assoc]
  rw [List.drop_append_of_le_length (by omega), hA]
  have := @List.take_append α (List.take l (List.drop p m))
    (vs ++ List.drop (p + l + vs.length) m) vs.length
  rw [hAl] at this
  rw [this]
  simp

/-- Storing behind the last element of a slice leaves what is read through it alone. -/
theorem read_write_frame (m : Mem α) (p l c : Nat) (vs : List α) (h : p + l ≤ m.length) :
    Slice.read ⟨p, l, c⟩ (Mem.write m (p + l) vs) = Slice.read ⟨p, l, c⟩ m := by
  have hlen : (List.take (p + l) m).length = p + l := by simp; omega
  have hA : List.drop p (List.take (p + l) m) = List.take l (List.drop p m) := by
    rw [List.drop_take]; simp
  have hAl : (List.take l (List.drop p m)).length = l := by simp; omega
  simp only [Slice.read, Mem.write, List.append_assoc]
  rw [List.drop_append_of_le_length (by omega), hA]
  rw [List.take_append_of_le_length (by omega)]
  simp

/-! ## One call of `getNewData` -/

/-- Below capacity `getNewData` stores the sample behind the last element. -/
theorem getNewData_grow (m : Mem α) (s : Slice) (x : α) (hlt : s.len < s.cap) :
    getNewData m (Except.ok x) s
      = Except.ok (Mem.write m (s.ptr + s.len) [x], ⟨s.ptr, s.len + 1, s.cap⟩, none) := by
  have hne : s.len ≠ s.cap := by omega
  have hfit : s.len + 1 ≤ s.cap := by omega
  simp [getNewData, goAppend, hne, hfit]

/-- At capacity `getNewData` moves the elements one cell down in place and stores the
sample in the last cell; the header it returns is the header it was given. -/
theorem getNewData_shift (m : Mem α) (s : Slice) (x : α) (hv : s.valid m)
    (hfull : s.len = s.cap) (hpos : 1 ≤ s.cap) :
    getNewData m (Except.ok x) s
      = Except.ok (Mem.write (Mem.write m s.ptr (Slice.read ⟨s.ptr + 1, s.len - 1, s.cap - 1⟩ m))
          (s.ptr + (s.len - 1)) [x], s, none) := by
  obtain ⟨p, l, c⟩ := s
  obtain ⟨_, hmem⟩ := hv
  simp only at hfull hpos hmem
  subst hfull
  have hsrc : (Slice.read ⟨p + 1, l - 1, l - 1⟩ m).length = l - 1 :=
    Slice.length_read _ _ (by simp only; omega)
  have h1 : l - 1 ≤ l := by omega
  have h2 : l - 1 + 1 = l := by omega
  have hr0 : Slice.reslice ⟨p, l, l⟩ 0 0 = Except.ok ⟨p, 0, l⟩ := by
    simp [Slice.reslice]
  have hr1 : Slice.reslice ⟨p, l, l⟩ 1 l = Except.ok ⟨p + 1, l - 1, l - 1⟩ := by
    simp [Slice.reslice, hpos]
  simp only [getNewData, if_true, hr0, hr1, goAppend, hsrc, Nat.zero_add, h1, h2,
    List.length_singleton, le_refl, Nat.add_zero]

theorem read_tail (m : Mem α) (p l c c1 : Nat) :
    Slice.read ⟨p + 1, l - 1, c1⟩ m = (Slice.read ⟨p, l, c⟩ m).tail := by
  simp only [Slice.read]
  rw [← List.drop_one, List.drop_take, List.drop_drop]

/-- What is read after the in-place shift: the old elements without the first, then
the new sample. -/
theorem read_shift (m : Mem α) (s : Slice) (x : α) (hv : s.valid m)
    (hfull : s.len = s.cap) (hpos : 1 ≤ s.cap) :
    s.read (Mem.write (Mem.write m s.ptr (Slice.read ⟨s.ptr + 1, s.len - 1, s.cap - 1⟩ m))
      (s.ptr + (s.len - 1)) [x]) = (s.read m).tail ++ [x] := by
  obtain ⟨p, l, c⟩ := s
  obtain ⟨_, hmem⟩ := hv
  simp only at hfull hpos hmem
  subst hfull
  simp only
  have hsrc : (Slice.read ⟨p + 1, l - 1, l - 1⟩ m).length = l - 1 :=
    Slice.length_read _ _ (by simp only; omega)
  have hlen1 : (Mem.write m p (Slice.read ⟨p + 1, l - 1, l - 1⟩ m)).length = m.length :=
    Mem.length_write _ _ _ (by omega)
  have e1 := read_write_behind (Mem.write m p (Slice.read ⟨p + 1, l - 1, l - 1⟩ m))
    p (l - 1) l [x] (by omega)
  have e2 := read_write_behind m p 0 l (Slice.read ⟨p + 1, l - 1, l - 1⟩ m) (by omega)
  have h2 : l - 1 + 1 = l := by omega
  simp only [List.length_singleton, h2] at e1
  simp only [Nat.add_zero, Nat.zero_add, hsrc] at e2
  rw [e1, e2, read_tail m p l l (l - 1)]
  simp [Slice.read]

/-- One successful call of `getNewData` on a well-formed slice of capacity at least 1:
it returns, it stays in the same array, and it is a FIFO step on what is read. -/
theorem getNewData_window (m : Mem α) (s : Slice) (x : α) (hv : s.valid m)
    (hpos : 1 ≤ s.cap) :
    ∃ m1 s1, getNewData m (Except.ok x) s = Except.ok (m1, s1, none)
      ∧ s1.valid m1 ∧ s1.ptr = s.ptr ∧ s1.cap = s.cap ∧ m1.length = m.length
      ∧ (s.len < s.cap → s1.len = s.len + 1 ∧ s1.read m1 = s.read m ++ [x]
          ∧ s.read m1 = s.read m)
      ∧ (s.len = s.cap → s1 = s ∧ s1.read m1 = (s.read m).tail ++ [x]) := by
  have hv0 := hv
  obtain ⟨hle, hmem⟩ := hv
  by_cases hlt : s.len < s.cap
  · have hw : (Mem.write m (s.ptr + s.len) [x]).length = m.length :=
      Mem.length_write _ _ _ (by simp; omega)
    refine ⟨_, _, getNewData_grow m s x hlt, ?_, rfl, rfl, hw, ?_, ?_⟩
    · exact ⟨by simp only; omega, by simp only [hw]; omega⟩
    · intro _
      refine ⟨rfl, ?_, ?_⟩
      · exact read_write_behind m s.ptr s.len s.cap [x] (by omega)
      · exact read_write_frame m s.ptr s.len s.cap [x] (by omega)
    · intro h; omega
  · have hfull : s.len = s.cap := by omega
    have hsrc : (Slice.read ⟨s.ptr + 1, s.len - 1, s.cap - 1⟩ m).length = s.len - 1 :=
      Slice.length_read _ _ (by simp only; omega)
    have hlen1 : (Mem.write m s.ptr (Slice.read ⟨s.ptr + 1, s.len - 1, s.cap - 1⟩ m)).length
        = m.length := Mem.length_write _ _ _ (by omega)
    have hw : (Mem.write (Mem.write m s.ptr (Slice.read ⟨s.ptr + 1, s.len - 1, s.cap - 1⟩ m))
        (s.ptr + (s.len - 1)) [x]).length = m.length := by
      rw [Mem.length_write _ _ _ (by simp; omega), hlen1]
    refine ⟨_, _, getNewData_shift m s x hv0 hfull hpos, ?_, rfl, rfl, hw, ?_, ?_⟩
    · exact ⟨hle, by rw [hw]; exact hmem⟩
    · intro h; omega
    · intro _
      exact ⟨rfl, read_shift m s x hv0 hfull hpos⟩

/-! ## Successive appends -/

theorem lastN_of_le (c : Nat) (w : List α) (h : w.length ≤ c) : lastN c w = w := by
  have h0 : w.length - c = 0 := by omega
  simp [lastN, h0]

theorem lastN_step_full (c : Nat) (w : List α) (x : α) (xs : List α) (h : w.length = c)
    (hpos : 1 ≤ c) : lastN c (w.tail ++ [x] ++ xs) = lastN c (w ++ x :: xs) := by
  cases w with
  | nil => simp at h; omega
  | cons a w1 =>
    simp only [List.length_cons] at h
    have e1 : (w1 ++ [x] ++ xs).length - c = xs.length := by simp; omega
    have e2 : (a :: w1 ++ x :: xs).length - c = xs.length + 1 := by simp; omega
    simp only [lastN, List.tail_cons, e1, e2]
    simp

/-- Successive appends to a well-formed slice of capacity `c ≥ 1` all return, stay in
the slice's array, and leave the last `c` of the elements and samples, oldest first. -/
theorem appendAll_window (xs : List α) : ∀ (m : Mem α) (s : Slice), s.valid m → 1 ≤ s.cap →
    ∃ m1 s1, appendAll m s xs = Except.ok (m1, s1)
      ∧ s1.valid m1 ∧ s1.ptr = s.ptr ∧ s1.cap = s.cap ∧ m1.length = m.length
      ∧ s1.read m1 = lastN s.cap (s.read m ++ xs) := by
  induction xs with
  | nil =>
    intro m s hv _
    refine ⟨m, s, rfl, hv, rfl, rfl, rfl, ?_⟩
    rw [List.append_nil, lastN_of_le]
    rw [Slice.length_read _ _ (by have := hv.1; have := hv.2; omega)]
    exact hv.1
  | cons x xs ih =>
    intro m s hv hpos
    obtain ⟨m1, s1, hstep, hv1, hp1, hc1, hl1, hgrow, hfull⟩ := getNewData_window m s x hv hpos
    obtain ⟨m2, s2, hrun, hv2, hp2, hc2, hl2, hread⟩ := ih m1 s1 hv1 (by omega)
    refine ⟨m2, s2, ?_, hv2, by omega, by omega, by omega, ?_⟩
    · simp only [appendAll, hstep]
      exact hrun
    · rw [hread, hc1]
      have hlen : (s.read m).length = s.len :=
        Slice.length_read _ _ (by have := hv.1; have := hv.2; omega)
      by_cases hlt : s.len < s.cap
      · rw [(hgrow hlt).2.1]
        simp
      · have hf : s.len = s.cap := by have := hv.1; omega
        rw [(hfull hf).2]
        exact lastN_step_full s.cap (s.read m) x xs (by omega) hpos

/-- The slice `make([]float64, 0, c)` is well formed and reads as the empty window. -/
theorem makeSlice_valid (zero : α) (m : Mem α) (c : Nat) :
    (makeSlice zero m c).2.valid (makeSlice zero m c).1
      ∧ (makeSlice zero m c).2.read (makeSlice zero m c).1 = []
      ∧ (makeSlice zero m c).2.len = 0 ∧ (makeSlice zero m c).2.cap = c := by
  simp [makeSlice, Slice.valid, Slice.read]

theorem snapshots_append (a b : List (Event α)) :
    snapshots (a ++ b) = snapshots a ++ snapshots b := by
  induction a with
  | nil => rfl
  | cons e a ih => cases e <;> simp [snapshots, ih]

theorem fetchCount_append (a b : List (Event α)) :
    fetchCount (a ++ b) = fetchCount a + fetchCount b := by
  induction a with
  | nil => simp [fetchCount]
  | cons e a ih =>
    cases e
    case fetch r =>
      simp [fetchCount, ih]
      omega
    all_goals simp [fetchCount, ih]

theorem sentErrors_append (a b : List (Event α)) :
    sentErrors (a ++ b) = sentErrors a ++ sentErrors b := by
  induction a with
  | nil => rfl
  | cons e a ih => cases e <;> simp [sentErrors, ih]

/-- Storing behind the last element of a slice leaves every shorter slice on the same
array alone. -/
theorem read_write_frame_le (m : Mem α) (p l k c : Nat) (vs : List α) (h : p + l ≤ m.length)
    (hk : k ≤ l) :
    Slice.read ⟨p, k, c⟩ (Mem.write m (p + l) vs) = Slice.read ⟨p, k, c⟩ m := by
  have e := read_write_frame m p l c vs h
  have t : ∀ mm : Mem α, Slice.read ⟨p, k, c⟩ mm = (Slice.read ⟨p, l, c⟩ mm).take k := by
    intro mm
    simp only [Slice.read, List.take_take, Nat.min_eq_left hk]
  rw [t, t, e]

/-! ## The claims about the window -/

/-- C1: samples appended one after another with `getNewData` to the window made in
`menu` (`make([]float64, 0, 120)`): after any number `k` of the appends the call has
returned, the window is no longer than 120, and it holds the last `min k 120` samples
appended, oldest first. -/
theorem window_keeps_last_120 (zero : α) (m0 : Mem α) (xs : List α) (k : Nat) :
    ∃ m1 s1,
      appendAll (makeSlice zero m0 120).1 (makeSlice zero m0 120).2 (xs.take k)
        = Except.ok (m1, s1)
      ∧ s1.len ≤ 120
      ∧ s1.len = min (xs.take k).length 120
      ∧ s1.read m1 = (xs.take k).drop ((xs.take k).length - min (xs.take k).length 120) := by
  obtain ⟨hv, hread, _, hcap⟩ := makeSlice_valid zero m0 120
  obtain ⟨m1, s1, hrun, hv1, _, hc1, _, hr1⟩ :=
    appendAll_window (xs.take k) (makeSlice zero m0 120).1 (makeSlice zero m0 120).2 hv
      (by rw [hcap]; decide)
  rw [hread, hcap, List.nil_append] at hr1
  have hlen : (s1.read m1).length = s1.len :=
    Slice.length_read _ _ (by have := hv1.1; have := hv1.2; omega)
  have hsub : (xs.take k).length - min (xs.take k).length 120 = (xs.take k).length - 120 := by
    omega
  refine ⟨m1, s1, hrun, ?_, ?_, ?_⟩
  · have := hv1.1; omega
  · rw [← hlen, hr1]
    simp only [lastN, List.length_drop]
    omega
  · rw [hr1, hsub, lastN]

/-- C2: one successful append to a well-formed window `w` of capacity at least 1:
`getNewData` returns `w ++ [x]` when `len(w) < cap(w)` and `w[1:] ++ [x]` when
`len(w) == cap(w)`. -/
theorem getNewData_fifo (m : Mem α) (w : Slice) (x : α) (hv : w.valid m) (hpos : 1 ≤ w.cap) :
    ∃ m1 s1, getNewData m (Except.ok x) w = Except.ok (m1, s1, none)
      ∧ (w.len < w.cap → s1.read m1 = w.read m ++ [x])
      ∧ (w.len = w.cap → s1.read m1 = (w.read m).drop 1 ++ [x] ∧ s1.len = w.cap) := by
  obtain ⟨m1, s1, hstep, _, _, _, _, hgrow, hfull⟩ := getNewData_window m w x hv hpos
  refine ⟨m1, s1, hstep, fun h => (hgrow h).2.1, fun h => ?_⟩
  obtain ⟨hs, hr⟩ := hfull h
  rw [hr, List.drop_one, hs]
  exact ⟨rfl, h⟩

theorem getNewData_fifo_witness :
    ∃ m1 s1, getNewData ([1, 2] : Mem Nat) (Except.ok 3) ⟨0, 2, 2⟩ = Except.ok (m1, s1, none)
      ∧ ((2 : Nat) < 2 → s1.read m1 = Slice.read ⟨0, 2, 2⟩ ([1, 2] : Mem Nat) ++ [3])
      ∧ ((2 : Nat) = 2 →
          s1.read m1 = (Slice.read ⟨0, 2, 2⟩ ([1, 2] : Mem Nat)).drop 1 ++ [3] ∧ s1.len = 2) :=
  getNewData_fifo ([1, 2] : Mem Nat) ⟨0, 2, 2⟩ 3 (by decide) (by decide)

/-- C7, as stated, fails: on the nil slice (`len 0`, `cap 0`) the test
`len(oldData) == cap(oldData)` holds and `oldData[1:]` is out of range. -/
theorem getNewData_nil_panics :
    getNewData ([] : Mem Nat) (Except.ok 5) Slice.nil = Except.error (Panic.sliceBounds 1 0) := by
  rfl

/-- C7, amended: on every empty window whose backing storage has a capacity of at
least 1, whatever that capacity, a successful append returns without a panic and the
window returned is `[x]`. -/
theorem getNewData_empty (m : Mem α) (w : Slice) (x : α) (hv : w.valid m) (hlen : w.len = 0)
    (hpos : 1 ≤ w.cap) :
    ∃ m1 s1, getNewData m (Except.ok x) w = Except.ok (m1, s1, none) ∧ s1.read m1 = [x] := by
  obtain ⟨m1, s1, hstep, _, _, _, _, hgrow, _⟩ := getNewData_window m w x hv hpos
  refine ⟨m1, s1, hstep, ?_⟩
  rw [(hgrow (by omega)).2.1]
  simp [Slice.read, hlen]

theorem getNewData_empty_witness :
    ∃ m1 s1, getNewData (makeSlice (0 : Nat) [] 120).1 (Except.ok 7) (makeSlice (0 : Nat) [] 120).2
      = Except.ok (m1, s1, none) ∧ s1.read m1 = [7] :=
  getNewData_empty (makeSlice (0 : Nat) [] 120).1 (makeSlice (0 : Nat) [] 120).2 7
    (by decide) (by decide) (by decide)

/-! ## The claim about `exit` -/

theorem exit_skip (pre : List KeyEvent) (rest : List KeyEvent)
    (hpre : ∀ k ∈ pre, k.decisive = false) : exit (pre ++ rest) = exit rest := by
  induction pre with
  | nil => rfl
  | cons k pre ih =>
    have hk := hpre k (List.mem_cons_self k pre)
    simp only [KeyEvent.decisive, Bool.or_eq_false_iff, decide_eq_false_iff_not] at hk
    obtain ⟨⟨he, h1⟩, h2⟩ := hk
    have he0 : k.err = none := by
      cases hke : k.err with
      | none => rfl
      | some e => simp [hke] at he
    simp only [List.cons_append, exit, he0, h1, h2, or_self, if_false]
    exact ih (fun j hj => hpre j (List.mem_cons_of_mem k hj))

theorem exit_not_nil (keys : List KeyEvent) : ∀ rest, exit keys ≠ some (none, rest) := by
  induction keys with
  | nil => intro rest; simp [exit]
  | cons k keys ih =>
    intro rest
    cases hke : k.err with
    | some e => simp [exit, hke]
    | none =>
      by_cases hb : k.key = KeyBackspace ∨ k.key = KeyBackspace2
      · simp [exit, hke, hb]
      · simp only [exit, hke, hb, if_false]
        exact ih rest

/-- C5: on a stream of key events whose first event that carries an error or is a
backspace key is `ev`, `exit` returns; it returns the error of `ev` when `ev` carries
one and `ErrQuiteButton` when it does not; the events before `ev` are ignored and the
events after it are left unconsumed. `exit` never returns nil, and it does not return
on a stream without such an event. -/
theorem exit_first_decisive (pre : List KeyEvent) (ev : KeyEvent) (post : List KeyEvent)
    (hpre : ∀ k ∈ pre, k.decisive = false) (hev : ev.decisive = true) :
    (∀ e, ev.err = some e → exit (pre ++ ev :: post) = some (some e, post))
      ∧ (ev.err = none → exit (pre ++ ev :: post) = some (some ErrQuiteButton, post))
      ∧ exit (pre ++ ev :: post) = exit (ev :: post)
      ∧ (∀ keys rest, exit keys ≠ some (none, rest))
      ∧ exit pre = none := by
  have hskip := exit_skip pre (ev :: post) hpre
  refine ⟨?_, ?_, hskip, exit_not_nil, ?_⟩
  · intro e he
    rw [hskip]
    simp [exit, he]
  · intro he
    rw [hskip]
    have hb : ev.key = KeyBackspace ∨ ev.key = KeyBackspace2 := by
      simpa [KeyEvent.decisive, he] using hev
    simp [exit, he, hb]
  · have := exit_skip pre [] hpre
    simpa [exit] using this

theorem exit_first_decisive_witness :
    (∀ e, (⟨KeyBackspace2, 0, none⟩ : KeyEvent).err = some e →
        exit ([⟨Key.other 0, 97, none⟩, ⟨Key.other 13, 0, none⟩] ++ ⟨KeyBackspace2, 0, none⟩ ::
          [⟨Key.other 0, 98, some (GoError.other "closed")⟩]) = some (some e, [⟨Key.other 0, 98, some (GoError.other "closed")⟩]))
      ∧ ((⟨KeyBackspace2, 0, none⟩ : KeyEvent).err = none →
        exit ([⟨Key.other 0, 97, none⟩, ⟨Key.other 13, 0, none⟩] ++ ⟨KeyBackspace2, 0, none⟩ ::
          [⟨Key.other 0, 98, some (GoError.other "closed")⟩])
          = some (some ErrQuiteButton, [⟨Key.other 0, 98, some (GoError.other "closed")⟩]))
      ∧ exit ([⟨Key.other 0, 97, none⟩, ⟨Key.other 13, 0, none⟩] ++ ⟨KeyBackspace2, 0, none⟩ ::
          [⟨Key.other 0, 98, some (GoError.other "closed")⟩])
          = exit (⟨KeyBackspace2, 0, none⟩ :: [⟨Key.other 0, 98, some (GoError.other "closed")⟩])
      ∧ (∀ keys rest, exit keys ≠ some (none, rest))
      ∧ exit [⟨Key.other 0, 97, none⟩, ⟨Key.other 13, 0, none⟩] = none :=
  exit_first_decisive [⟨Key.other 0, 97, none⟩, ⟨Key.other 13, 0, none⟩] ⟨KeyBackspace2, 0, none⟩
    [⟨Key.other 0, 98, some (GoError.other "closed")⟩] (by decide) (by decide)

theorem write_singleton (m : Mem α) (q : Nat) (x : α) (h : q < m.length) :
    Mem.write m q [x] = m.set q x := by
  simp [Mem.write, List.set_eq_take_append_cons_drop, h]

/-- Storing into a cell of a slice changes that element of what is read through it. -/
theorem read_write_inside (m : Mem α) (p l k c : Nat) (x : α) (h : p + l < m.length) :
    Slice.read ⟨p, k, c⟩ (Mem.write m (p + l) [x]) = (Slice.read ⟨p, k, c⟩ m).set l x := by
  have hn : ¬ p + l < p := by omega
  rw [write_singleton m (p + l) x h]
  simp only [Slice.read]
  rw [List.drop_set, if_neg hn, List.set_take, Nat.add_sub_cancel_left]

/-- Appends into the zeroed rest of an array fill it from the front. -/
theorem appendAll_fill (zero : α) (xs : List α) :
    ∀ (pre : List α) (k : Nat), xs.length ≤ k →
      appendAll (pre ++ List.replicate k zero) ⟨0, pre.length, pre.length + k⟩ xs
        = Except.ok (pre ++ xs ++ List.replicate (k - xs.length) zero,
            ⟨0, pre.length + xs.length, pre.length + k⟩) := by
  induction xs with
  | nil => intro pre k _; simp [appendAll]
  | cons x xs ih =>
    intro pre k hk
    simp only [List.length_cons] at hk
    obtain ⟨j, rfl⟩ : ∃ j, k = j + 1 := ⟨k - 1, by omega⟩
    have hw : Mem.write (pre ++ List.replicate (j + 1) zero) (0 + pre.length) [x]
        = (pre ++ [x]) ++ List.replicate j zero := by
      simp [Mem.write, List.replicate_succ]
    have hstep := getNewData_grow (pre ++ List.replicate (j + 1) zero)
      ⟨0, pre.length, pre.length + (j + 1)⟩ x (by simp only; omega)
    simp only [hw] at hstep
    have hih := ih (pre ++ [x]) j (by omega)
    simp only [List.length_append, List.length_singleton] at hih
    simp only [appendAll, hstep]
    have e1 : pre.length + (j + 1) = pre.length + 1 + j := by omega
    have e2 : pre.length + (xs.length + 1) = pre.length + 1 + xs.length := by omega
    have e3 : j + 1 - (xs.length + 1) = j - xs.length := by omega
    rw [List.length_cons, e1, e2, e3, hih]
    simp

/-- C8, as stated, fails: on the window of `menu` after the samples 0, ..., 118, `worker`
appends 119 and sends the header `(0, 120, 120)`, which then reads 0, ..., 119; the next
`getNewData` returns the same header on the same array, and the snapshot sent earlier
reads 1, ..., 120. -/
theorem snapshot_overwritten_when_full :
    appendAll (makeSlice (0 : Nat) [] 120).1 (makeSlice (0 : Nat) [] 120).2 (List.range 119)
        = Except.ok (List.range 119 ++ [0], ⟨0, 119, 120⟩)
    ∧ worker (List.range 119 ++ [0]) (Except.ok 119) ⟨0, 119, 120⟩
        = Except.ok (List.range 120, some ⟨0, 120, 120⟩, none)
    ∧ Slice.read ⟨0, 120, 120⟩ (List.range 120) = List.range 120
    ∧ getNewData (List.range 120) (Except.ok 120) ⟨0, 120, 120⟩
        = Except.ok ((List.range 121).drop 1, ⟨0, 120, 120⟩, none)
    ∧ Slice.read ⟨0, 120, 120⟩ ((List.range 121).drop 1) = (List.range 121).drop 1
    ∧ (List.range 121).drop 1 ≠ List.range 120 := by
  set_option maxRecDepth 100000 in
  refine ⟨?_, by rfl, by decide, by rfl, by decide, by decide⟩
  have h := appendAll_fill (0 : Nat) (List.range 119) [] 120 (by rw [List.length_range]; decide)
  rw [List.length_range] at h
  exact h

/-- C8, amended: a snapshot `t` is a header on the window's own array, and one later
append by `getNewData` on a window `s` of that array does this to what is read through
`t`: nothing when `s` is below capacity and at least as long as `t`; it replaces the
element at index `len(s)` by the new sample when `s` is below capacity and shorter than
`t`; when `s` is full the array is shifted in place and `t` reads the first `len(t)`
elements of `s[1:] ++ [x]`. -/
theorem snapshot_after_append (m : Mem α) (s t : Slice) (x : α) (hv : s.valid m)
    (hpos : 1 ≤ s.cap) (hp : t.ptr = s.ptr) (ht : t.len ≤ s.cap) :
    ∃ m1 s1, getNewData m (Except.ok x) s = Except.ok (m1, s1, none)
      ∧ (s.len < s.cap → t.len ≤ s.len → t.read m1 = t.read m)
      ∧ (s.len < s.cap → s.len < t.len → t.read m1 = (t.read m).set s.len x)
      ∧ (s.len = s.cap → t.read m1 = ((s.read m).drop 1 ++ [x]).take t.len) := by
  obtain ⟨tp, tl, tc⟩ := t
  simp only at hp ht
  subst hp
  have hmem := hv.2
  by_cases hlt : s.len < s.cap
  · refine ⟨_, _, getNewData_grow m s x hlt, ?_, ?_, ?_⟩
    · intro _ hle
      exact read_write_frame_le m s.ptr s.len tl tc [x] (by omega) hle
    · intro _ _
      exact read_write_inside m s.ptr s.len tl tc x (by omega)
    · intro h; omega
  · have hfull : s.len = s.cap := by have := hv.1; omega
    refine ⟨_, _, getNewData_shift m s x hv hfull hpos, ?_, ?_, ?_⟩
    · intro h; omega
    · intro h; omega
    · intro _
      have hr := read_shift m s x hv hfull hpos
      rw [List.drop_one, ← hr]
      simp only [Slice.read, List.take_take]
      rw [Nat.min_eq_left (by omega)]

theorem snapshot_after_append_witness :
    ∃ m1 s1, getNewData ([7, 8, 0] : Mem Nat) (Except.ok 99) ⟨0, 0, 3⟩ = Except.ok (m1, s1, none)
      ∧ ((0 : Nat) < 3 → (2 : Nat) ≤ 0 →
          Slice.read ⟨0, 2, 3⟩ m1 = Slice.read ⟨0, 2, 3⟩ ([7, 8, 0] : Mem Nat))
      ∧ ((0 : Nat) < 3 → (0 : Nat) < 2 →
          Slice.read ⟨0, 2, 3⟩ m1 = (Slice.read ⟨0, 2, 3⟩ ([7, 8, 0] : Mem Nat)).set 0 99)
      ∧ ((0 : Nat) = 3 →
          Slice.read ⟨0, 2, 3⟩ m1
            = ((Slice.read ⟨0, 0, 3⟩ ([7, 8, 0] : Mem Nat)).drop 1 ++ [99]).take 2) :=
  snapshot_after_append ([7, 8, 0] : Mem Nat) ⟨0, 0, 3⟩ ⟨0, 2, 3⟩ 99
    (by decide) (by decide) rfl (by decide)

/-! ## The program: steps and what they leave alone -/

theorem errorsIs_iff_chain (e target : GoError) :
    errorsIs e target = true ↔ target ∈ e.chain := by
  induction e with
  | quit => simp [errorsIs, GoError.chain, eq_comm]
  | other msg => simp [errorsIs, GoError.chain, eq_comm]
  | wrapf ctx inner ih =>
    simp only [errorsIs, GoError.chain, Bool.or_eq_true, decide_eq_true_eq, ih,
      List.mem_cons]
    constructor
    · rintro (h | h)
      · exact Or.inl h.symm
      · exact Or.inr h
    · rintro (h | h)
      · exact Or.inl h.symm
      · exact Or.inr h

theorem step_finished (p : Prog α) (a : Action α) (o : Outcome)
    (h : p.phase = Phase.finished o) : step p a = p := by
  simp [step, h]

theorem run_cons (p : Prog α) (a : Action α) (acts : List (Action α)) :
    run p (a :: acts) = run (step p a) acts := rfl

theorem run_finished (acts : List (Action α)) :
    ∀ (p : Prog α) (o : Outcome), p.phase = Phase.finished o → run p acts = p := by
  induction acts with
  | nil => intro p o _; rfl
  | cons a acts ih =>
    intro p o h
    rw [run_cons, step_finished p a o h]
    exact ih p o h

theorem set_self_of_getElem? {β : Type} (l : List β) :
    ∀ (i : Nat) (s : β), l[i]? = some s → l.set i s = l := by
  induction l with
  | nil => intro i s h; simp at h
  | cons a l ih =>
    intro i s h
    cases i with
    | zero =>
      simp only [List.getElem?_cons_zero, Option.some.injEq] at h
      simp [h]
    | succ i =>
      simp only [List.getElem?_cons_succ] at h
      simp [ih i s h]

theorem getElem?_set_fix {β : Type} (l : List β) (i j : Nat) (s y : β) (h : l[i]? = some s)
    (hy : j = i → y = s) : (l.set j y)[i]? = some s := by
  by_cases hji : j = i
  · subst hji
    have hlt : j < l.length := (List.getElem?_eq_some_iff.mp h).1
    rw [List.getElem?_set_self hlt, hy rfl]
  · rw [List.getElem?_set_ne hji]
    exact h

theorem coordinator_sessions (p : Prog α) (i : Nat) (s : Session α) (err : GoError) :
    (coordinator p i s err).sessions = p.sessions.set i { s with cancelled := true } := by
  unfold coordinator
  split
  · rfl
  · split <;> rfl

theorem coordinator_mem (p : Prog α) (i : Nat) (s : Session α) (err : GoError) :
    (coordinator p i s err).mem = p.mem ∧ (coordinator p i s err).data = p.data := by
  unfold coordinator
  split
  · exact ⟨rfl, rfl⟩
  · split <;> exact ⟨rfl, rfl⟩

theorem sampleHead_stopped (s : Session α) (h : s.pc = Pc.stopped) : sampleHead s = s := by
  simp [sampleHead, h]

theorem sampleFetched_stopped (m : Mem α) (s : Session α) (r : Except GoError α)
    (h : s.pc = Pc.stopped) : sampleFetched m s r = (m, s, Effect.nothing) := by
  simp [sampleFetched, h]

theorem cancelled_self (s : Session α) (h : s.cancelled = true) :
    { s with cancelled := true } = s := by
  cases s
  simp only at h
  subst h
  rfl

/-- A sampler that has stopped on a cancelled context is left alone by every action. -/
theorem step_stopped_fixed (p : Prog α) (a : Action α) (i : Nat) (s : Session α)
    (hs : p.sessions[i]? = some s) (hpc : s.pc = Pc.stopped) (hc : s.cancelled = true) :
    (step p a).sessions[i]? = some s := by
  have hlt : i < p.sessions.length := (List.getElem?_eq_some_iff.mp hs).1
  have hmk : ∀ ev gk ro, (menuKey p ev gk ro).sessions[i]? = some s := by
    intro ev gk ro
    unfold menuKey
    split
    · exact hs
    · split
      · exact hs
      · split
        · exact hs
        · split
          · exact hs
          · simp only
            rw [List.getElem?_append_left hlt]
            exact hs
  have hsk : ∀ ev, (sessKey p ev).sessions[i]? = some s := by
    intro ev
    unfold sessKey
    split
    · exact hs
    · rename_i s1 hs1
      split
      · exact hs
      · rw [coordinator_sessions]
        apply getElem?_set_fix _ _ _ _ _ hs
        intro hj
        rw [hj, hs] at hs1
        cases hs1
        exact cancelled_self s hc
  have hh : ∀ j, (headStep p j).sessions[i]? = some s := by
    intro j
    unfold headStep
    split
    · exact hs
    · rename_i s1 hs1
      simp only
      apply getElem?_set_fix _ _ _ _ _ hs
      intro hj
      rw [hj, hs] at hs1
      cases hs1
      exact sampleHead_stopped s hpc
  have hf : ∀ j r, (fetchedStep p j r).sessions[i]? = some s := by
    intro j r
    unfold fetchedStep
    split
    · exact hs
    · rename_i s1 hs1
      by_cases hj : j = i
      · rw [hj, hs] at hs1
        cases hs1
        simp only [sampleFetched_stopped p.mem s r hpc]
        apply getElem?_set_fix _ _ _ _ _ hs
        intro _; rfl
      · have hset : ((p.sessions.set j (sampleFetched p.mem s1 r).2.1))[i]? = some s := by
          rw [List.getElem?_set_ne hj]; exact hs
        simp only
        split
        · exact hset
        · exact hset
        · rw [coordinator_sessions]
          simp only
          rw [List.getElem?_set_ne hj]
          exact hset
  unfold step
  split
  · exact hs
  · cases a with
    | menuKey ev gk ro => exact hmk ev gk ro
    | sessKey ev => exact hs
    | head j => exact hh j
    | fetched j r => exact hf j r
  · cases a with
    | menuKey ev gk ro => exact hs
    | sessKey ev => exact hsk ev
    | head j => exact hh j
    | fetched j r => exact hf j r

theorem run_stopped_fixed (acts : List (Action α)) :
    ∀ (p : Prog α) (i : Nat) (s : Session α), p.sessions[i]? = some s → s.pc = Pc.stopped →
      s.cancelled = true → (run p acts).sessions[i]? = some s := by
  induction acts with
  | nil => intro p i s hs _ _; exact hs
  | cons a acts ih =>
    intro p i s hs hpc hc
    rw [run_cons]
    exact ih (step p a) i s (step_stopped_fixed p a i s hs hpc hc) hpc hc

/-- The actions of a sampler that has stopped do nothing. -/
theorem step_sampler_stopped (q : Prog α) (j : Nat) (s : Session α) (r : Except GoError α)
    (hq : q.sessions[j]? = some s) (hpc : s.pc = Pc.stopped) :
    step q (Action.head j) = q ∧ step q (Action.fetched j r) = q := by
  obtain ⟨mem, data, phase, displays, sessions⟩ := q
  simp only at hq
  have hset := set_self_of_getElem? sessions j s hq
  cases phase with
  | finished o => exact ⟨rfl, rfl⟩
  | menu =>
    constructor
    · simp only [step, headStep, hq, sampleHead_stopped s hpc, hset]
    · simp only [step, fetchedStep, hq, sampleFetched_stopped mem s r hpc, hset]
  | session =>
    constructor
    · simp only [step, headStep, hq, sampleHead_stopped s hpc, hset]
    · simp only [step, fetchedStep, hq, sampleFetched_stopped mem s r hpc, hset]

/-! ## The claim about the cancelled sampler -/

/-- C4: once the head check of an iteration of the sampler of session `i` sees the
context done, the sampler closes `ch` and returns: over that action and whatever
schedule follows, the session's only new event is `close(ch)`, so nothing is fetched
and nothing is published; the head check leaves the memory alone, and any later action
of this sampler leaves the whole program as it is. -/
theorem sampler_stops_on_done (p : Prog α) (i : Nat) (s : Session α)
    (later : List (Action α)) (hrun : ∀ o, p.phase ≠ Phase.finished o)
    (hs : p.sessions[i]? = some s) (hpc : s.pc = Pc.idle) (hc : s.cancelled = true) :
    (run p (Action.head i :: later)).sessions[i]?
        = some { s with pc := Pc.stopped, trace := s.trace ++ [Event.closeCh] }
      ∧ sessionTrace (run p (Action.head i :: later)) i = s.trace ++ [Event.closeCh]
      ∧ fetchCount (sessionTrace (run p (Action.head i :: later)) i) = fetchCount s.trace
      ∧ snapshots (sessionTrace (run p (Action.head i :: later)) i) = snapshots s.trace
      ∧ (step p (Action.head i)).mem = p.mem
      ∧ (∀ (q : Prog α) (j : Nat) (r : Except GoError α),
          q.sessions[j]?
            = some { s with pc := Pc.stopped, trace := s.trace ++ [Event.closeCh] } →
          step q (Action.head j) = q ∧ step q (Action.fetched j r) = q) := by
  have hlt : i < p.sessions.length := (List.getElem?_eq_some_iff.mp hs).1
  have hhead : sampleHead s
      = { s with pc := Pc.stopped, trace := s.trace ++ [Event.closeCh] } := by
    simp [sampleHead, hpc, hc]
  have hstep : step p (Action.head i)
      = Prog.mk p.mem p.data p.phase p.displays (p.sessions.set i
            { s with pc := Pc.stopped, trace := s.trace ++ [Event.closeCh] }) := by
    cases hph : p.phase with
    | finished o => exact absurd hph (hrun o)
    | menu => simp [step, hph, headStep, hs, hhead]
    | session => simp [step, hph, headStep, hs, hhead]
  have hget : (step p (Action.head i)).sessions[i]?
      = some { s with pc := Pc.stopped, trace := s.trace ++ [Event.closeCh] } := by
    rw [hstep]
    simp only
    rw [List.getElem?_set_self hlt]
  have hfin := run_stopped_fixed later (step p (Action.head i)) i _ hget rfl hc
  rw [run_cons]
  refine ⟨hfin, ?_, ?_, ?_, ?_, ?_⟩
  · simp [sessionTrace, hfin]
  · simp [sessionTrace, hfin, fetchCount_append, fetchCount]
  · simp [sessionTrace, hfin, snapshots_append, snapshots]
  · rw [hstep]
  · intro q j r hq
    exact step_sampler_stopped q j _ r hq rfl

theorem sampler_stops_on_done_witness :
    (menu (0 : Nat) none
        [Action.menuKey ⟨Key.other 0, 49, none⟩ none none,
         Action.sessKey ⟨KeyBackspace, 0, none⟩]).sessions[0]?
        = some ⟨"BTC", ⟨0, 0, 120⟩, true, Pc.idle, none, []⟩
      ∧ sessionTrace (run (menu (0 : Nat) none
          [Action.menuKey ⟨Key.other 0, 49, none⟩ none none,
           Action.sessKey ⟨KeyBackspace, 0, none⟩])
          (Action.head 0 :: [Action.fetched 0 (Except.ok 5), Action.head 0,
            Action.fetched 0 (Except.ok 6)])) 0 = [] ++ [Event.closeCh] :=
  ⟨rfl, (sampler_stops_on_done (menu (0 : Nat) none
      [Action.menuKey ⟨Key.other 0, 49, none⟩ none none,
       Action.sessKey ⟨KeyBackspace, 0, none⟩]) 0
      ⟨"BTC", ⟨0, 0, 120⟩, true, Pc.idle, none, []⟩
      [Action.fetched 0 (Except.ok 5), Action.head 0, Action.fetched 0 (Except.ok 6)]
      (fun o h => Phase.noConfusion (h : Phase.menu = Phase.finished o)) rfl rfl rfl).2.1⟩

/-! ## The invariant of the program -/

theorem GoodTrace.nil : GoodTrace ([] : List (Event α)) :=
  ⟨rfl, List.Forall₂.nil, by intro pn h; simp [crash] at h⟩

theorem step_data (p : Prog α) (a : Action α) : (step p a).data = p.data := by
  have hmk : ∀ ev gk ro, (menuKey p ev gk ro).data = p.data := by
    intro ev gk ro
    unfold menuKey
    split
    · rfl
    · split
      · rfl
      · split
        · rfl
        · split <;> rfl
  have hsk : ∀ ev, (sessKey p ev).data = p.data := by
    intro ev
    unfold sessKey
    split
    · rfl
    · split
      · rfl
      · exact (coordinator_mem _ _ _ _).2
  have hh : ∀ j, (headStep p j).data = p.data := by
    intro j
    unfold headStep
    split <;> rfl
  have hf : ∀ j r, (fetchedStep p j r).data = p.data := by
    intro j r
    unfold fetchedStep
    split
    · rfl
    · simp only
      split
      · rfl
      · rfl
      · exact (coordinator_mem _ _ _ _).2
  unfold step
  split
  · rfl
  · cases a with
    | menuKey ev gk ro => exact hmk ev gk ro
    | sessKey ev => rfl
    | head j => exact hh j
    | fetched j r => exact hf j r
  · cases a with
    | menuKey ev gk ro => rfl
    | sessKey ev => exact hsk ev
    | head j => exact hh j
    | fetched j r => exact hf j r

/-- The slice `data` of `menu`, which every session is started on, stays the header of
length 0 and capacity 120 made before the loop. -/
theorem menu_data (zero : α) (openErr : Option GoError) (acts : List (Action α)) :
    (menu zero openErr acts).data = ⟨0, 0, 120⟩ := by
  have hrun : ∀ (l : List (Action α)) (p : Prog α), (run p l).data = p.data := by
    intro l
    induction l with
    | nil => intro p; rfl
    | cons a l ih => intro p; rw [run_cons, ih, step_data]
  unfold menu
  rw [hrun]
  unfold start
  split <;> rfl

theorem buildPlotResult_of_not_quit (err : GoError) (h : ErrQuiteButton ∉ err.chain) :
    buildPlotResult err = some (GoError.wrapf "buildPlot -> " err) := by
  have hn : ¬ errorsIs err ErrQuiteButton = true := fun hq =>
    h ((errorsIs_iff_chain err ErrQuiteButton).mp hq)
  simp [buildPlotResult, hn]

theorem coordinator_of_not_quit (p : Prog α) (i : Nat) (s : Session α) (err : GoError)
    (h : ErrQuiteButton ∉ err.chain) :
    (coordinator p i s err).phase = Phase.finished (Outcome.returned
        (some (GoError.wrapf "menu -> " (GoError.wrapf "buildPlot -> " err))))
      ∧ (coordinator p i s err).displays = p.displays := by
  simp [coordinator, buildPlotResult_of_not_quit err h]

/-- C6: `buildPlot` returns nil exactly when the first error delivered on `errCh` is
`ErrQuiteButton` or wraps it, and otherwise returns that error wrapped. In a running
session: a backspace key makes `exit` send `ErrQuiteButton`, `buildPlot` returns nil and
the menu is written again; a keyboard error, or the error of a failed fetch wrapped by
`worker`, makes `buildPlot` return it wrapped, `menu` returns it wrapped again without
writing the menu again, and `main` panics with it. -/
theorem buildPlot_nil_iff_quit (p : Prog α) (s : Session α) (err : GoError)
    (hph : p.phase = Phase.session) (hs : p.sessions[p.sessions.length - 1]? = some s) :
    (buildPlotResult err = none ↔ ErrQuiteButton ∈ err.chain)
      ∧ (ErrQuiteButton ∉ err.chain →
          buildPlotResult err = some (GoError.wrapf "buildPlot -> " err))
      ∧ (∀ (k : Key) (r : Nat), k = KeyBackspace ∨ k = KeyBackspace2 → s.reopen = none →
          (step p (Action.sessKey ⟨k, r, none⟩)).phase = Phase.menu
          ∧ (step p (Action.sessKey ⟨k, r, none⟩)).displays = p.displays + 1)
      ∧ (∀ (k : Key) (r : Nat) (e : GoError), ErrQuiteButton ∉ e.chain →
          (step p (Action.sessKey ⟨k, r, some e⟩)).phase = Phase.finished (Outcome.returned
            (some (GoError.wrapf "menu -> " (GoError.wrapf "buildPlot -> " e))))
          ∧ (step p (Action.sessKey ⟨k, r, some e⟩)).displays = p.displays
          ∧ main (step p (Action.sessKey ⟨k, r, some e⟩)) = some (Outcome.crashed
            (Panic.goError (GoError.wrapf "menu -> " (GoError.wrapf "buildPlot -> " e)))))
      ∧ (∀ (i : Nat) (si : Session α) (e : GoError), p.sessions[i]? = some si →
          si.pc = Pc.fetching → si.cancelled = false → ErrQuiteButton ∉ e.chain →
          (step p (Action.fetched i (Except.error e))).phase
            = Phase.finished (Outcome.returned (some (GoError.wrapf "menu -> "
                (GoError.wrapf "buildPlot -> " (GoError.wrapf "worker -> " e)))))
          ∧ (step p (Action.fetched i (Except.error e))).displays = p.displays
          ∧ sentErrors (sessionTrace (step p (Action.fetched i (Except.error e))) i)
              = sentErrors si.trace ++ [GoError.wrapf "worker -> " e]
          ∧ main (step p (Action.fetched i (Except.error e))) = some (Outcome.crashed
            (Panic.goError (GoError.wrapf "menu -> "
              (GoError.wrapf "buildPlot -> " (GoError.wrapf "worker -> " e)))))) := by
  refine ⟨?_, buildPlotResult_of_not_quit err, ?_, ?_, ?_⟩
  · rw [← errorsIs_iff_chain]
    by_cases hq : errorsIs err ErrQuiteButton = true
    · simp [buildPlotResult, hq]
    · simp [buildPlotResult, hq]
  · intro k r hk hre
    have hex : exitSend [⟨k, r, none⟩] = some ErrQuiteButton := by
      simp [exitSend, exit, hk]
    have hq : buildPlotResult ErrQuiteButton = none := by
      simp [buildPlotResult, errorsIs, ErrQuiteButton]
    simp [step, hph, sessKey, hs, hex, coordinator, hq, hre]
  · intro k r e he
    have hex : exitSend [⟨k, r, some e⟩] = some e := by
      simp [exitSend, exit]
    have hstep : step p (Action.sessKey ⟨k, r, some e⟩)
        = coordinator p (p.sessions.length - 1) s e := by
      simp [step, hph, sessKey, hs, hex]
    obtain ⟨h1, h2⟩ := coordinator_of_not_quit p (p.sessions.length - 1) s e he
    rw [hstep]
    exact ⟨h1, h2, by simp [main, h1]⟩
  · intro i si e hsi hpc hc he
    have hlt : i < p.sessions.length := (List.getElem?_eq_some_iff.mp hsi).1
    have hw : worker p.mem (Except.error e) si.data
        = Except.ok (p.mem, none, some (GoError.wrapf "worker -> " e)) := by
      simp [worker, getNewData]
    have hsf : sampleFetched p.mem si (Except.error e)
        = (p.mem, Session.mk si.currency si.data si.cancelled Pc.idle si.reopen (si.trace ++
            [Event.fetch (Except.error e), Event.sendErr (GoError.wrapf "worker -> " e)]),
           Effect.delivered (GoError.wrapf "worker -> " e)) := by
      simp [sampleFetched, hpc, hw, hc]
    have hne : ErrQuiteButton ∉ (GoError.wrapf "worker -> " e).chain := by
      simp only [GoError.chain, List.mem_cons, not_or]
      exact ⟨by simp [ErrQuiteButton], he⟩
    have hstep : step p (Action.fetched i (Except.error e))
        = coordinator (Prog.mk p.mem p.data p.phase p.displays (p.sessions.set i
            (Session.mk si.currency si.data si.cancelled Pc.idle si.reopen (si.trace ++
              [Event.fetch (Except.error e),
                Event.sendErr (GoError.wrapf "worker -> " e)])))) i
            (Session.mk si.currency si.data si.cancelled Pc.idle si.reopen (si.trace ++
              [Event.fetch (Except.error e), Event.sendErr (GoError.wrapf "worker -> " e)]))
            (GoError.wrapf "worker -> " e) := by
      simp [step, hph, fetchedStep, hsi, hsf]
    obtain ⟨h1, h2⟩ := coordinator_of_not_quit (Prog.mk p.mem p.data p.phase p.displays
      (p.sessions.set i (Session.mk si.currency si.data si.cancelled Pc.idle si.reopen
        (si.trace ++ [Event.fetch (Except.error e),
          Event.sendErr (GoError.wrapf "worker -> " e)])))) i
      (Session.mk si.currency si.data si.cancelled Pc.idle si.reopen (si.trace ++
        [Event.fetch (Except.error e), Event.sendErr (GoError.wrapf "worker -> " e)]))
      (GoError.wrapf "worker -> " e) hne
    rw [hstep]
    refine ⟨h1, h2, ?_, by simp [main, h1]⟩
    simp [sessionTrace, coordinator_sessions, hlt, sentErrors_append, sentErrors]

theorem buildPlot_nil_iff_quit_witness :
    (menu (0 : Nat) none
        [Action.menuKey ⟨Key.other 0, 49, none⟩ none none, Action.head 0]).phase
        = Phase.session
      ∧ ((step (menu (0 : Nat) none
            [Action.menuKey ⟨Key.other 0, 49, none⟩ none none, Action.head 0])
          (Action.sessKey ⟨KeyBackspace, 0, none⟩)).phase = Phase.menu
        ∧ (step (menu (0 : Nat) none
            [Action.menuKey ⟨Key.other 0, 49, none⟩ none none, Action.head 0])
          (Action.sessKey ⟨KeyBackspace, 0, none⟩)).displays = 1 + 1)
      ∧ (step (menu (0 : Nat) none
            [Action.menuKey ⟨Key.other 0, 49, none⟩ none none, Action.head 0])
          (Action.fetched 0 (Except.error (GoError.other "timeout")))).phase
        = Phase.finished (Outcome.returned (some (GoError.wrapf "menu -> "
            (GoError.wrapf "buildPlot -> "
              (GoError.wrapf "worker -> " (GoError.other "timeout")))))) :=
  ⟨rfl,
   (buildPlot_nil_iff_quit (menu (0 : Nat) none
      [Action.menuKey ⟨Key.other 0, 49, none⟩ none none, Action.head 0])
      ⟨"BTC", ⟨0, 0, 120⟩, false, Pc.fetching, none, []⟩ ErrQuiteButton rfl rfl).2.2.1
      KeyBackspace 0 (Or.inl rfl) rfl,
   ((buildPlot_nil_iff_quit (menu (0 : Nat) none
      [Action.menuKey ⟨Key.other 0, 49, none⟩ none none, Action.head 0])
      ⟨"BTC", ⟨0, 0, 120⟩, false, Pc.fetching, none, []⟩ ErrQuiteButton rfl rfl).2.2.2.2
      0 ⟨"BTC", ⟨0, 0, 120⟩, false, Pc.fetching, none, []⟩ (GoError.other "timeout")
      rfl rfl rfl (by decide)).1⟩

/-- C3, the failing run: the user presses backspace while the first fetch of the
session is in flight, `buildPlot` returns nil and its deferred `close(errCh)` runs, the
menu is written again; then the fetch fails, and the sampler's `errCh <- err` is a send
on a closed channel: the process panics and no error was surfaced by the sampler. -/
theorem sampler_send_on_closed_errCh :
    (menu (0 : Nat) none
        [Action.menuKey ⟨Key.other 0, 49, none⟩ none none, Action.head 0,
         Action.sessKey ⟨KeyBackspace, 0, none⟩]).phase = Phase.menu
      ∧ (menu (0 : Nat) none
        [Action.menuKey ⟨Key.other 0, 49, none⟩ none none, Action.head 0,
         Action.sessKey ⟨KeyBackspace, 0, none⟩,
         Action.fetched 0 (Except.error (GoError.other "timeout"))]).phase
        = Phase.finished (Outcome.crashed Panic.sendOnClosed)
      ∧ sentErrors (sessionTrace (menu (0 : Nat) none
        [Action.menuKey ⟨Key.other 0, 49, none⟩ none none, Action.head 0,
         Action.sessKey ⟨KeyBackspace, 0, none⟩,
         Action.fetched 0 (Except.error (GoError.other "timeout"))]) 0) = []
      ∧ crash (sessionTrace (menu (0 : Nat) none
        [Action.menuKey ⟨Key.other 0, 49, none⟩ none none, Action.head 0,
         Action.sessKey ⟨KeyBackspace, 0, none⟩,
         Action.fetched 0 (Except.error (GoError.other "timeout"))]) 0)
        = some Panic.sendOnClosed := by
  decide

/-- C9, the failing run: the user presses backspace while the first fetch of session 0
is in flight and starts session 1, whose sampler appends 7, 8, 9 to the array all
sessions share; the fetch of session 0 then returns 99 and its sampler, which checks the
context only at the head of an iteration, appends it at index 0 of that array. The next
snapshot of session 1 is `[99, 8, 9, 10]`: it holds a sample of the earlier session. -/
theorem late_append_overwrites_next_session :
    snapshots (sessionTrace (menu (0 : Nat) none
        [Action.menuKey ⟨Key.other 0, 49, none⟩ none none, Action.head 0,
         Action.sessKey ⟨KeyBackspace, 0, none⟩,
         Action.menuKey ⟨Key.other 0, 50, none⟩ none none,
         Action.head 1, Action.fetched 1 (Except.ok 7),
         Action.head 1, Action.fetched 1 (Except.ok 8),
         Action.head 1, Action.fetched 1 (Except.ok 9),
         Action.fetched 0 (Except.ok 99),
         Action.head 1, Action.fetched 1 (Except.ok 10)]) 1)
        = [[7], [7, 8], [7, 8, 9], [99, 8, 9, 10]]
      ∧ fetched (sessionTrace (menu (0 : Nat) none
        [Action.menuKey ⟨Key.other 0, 49, none⟩ none none, Action.head 0,
         Action.sessKey ⟨KeyBackspace, 0, none⟩,
         Action.menuKey ⟨Key.other 0, 50, none⟩ none none,
         Action.head 1, Action.fetched 1 (Except.ok 7),
         Action.head 1, Action.fetched 1 (Except.ok 8),
         Action.head 1, Action.fetched 1 (Except.ok 9),
         Action.fetched 0 (Except.ok 99),
         Action.head 1, Action.fetched 1 (Except.ok 10)]) 1) = [7, 8, 9, 10]
      ∧ fetched (sessionTrace (menu (0 : Nat) none
        [Action.menuKey ⟨Key.other 0, 49, none⟩ none none, Action.head 0,
         Action.sessKey ⟨KeyBackspace, 0, none⟩,
         Action.menuKey ⟨Key.other 0, 50, none⟩ none none,
         Action.head 1, Action.fetched 1 (Except.ok 7),
         Action.head 1, Action.fetched 1 (Except.ok 8),
         Action.head 1, Action.fetched 1 (Except.ok 9),
         Action.fetched 0 (Except.ok 99),
         Action.head 1, Action.fetched 1 (Except.ok 10)]) 0) = [99] := by
  decide

end DrawCurrencyPlots
